import Mathlib

/-!
Verification of the matrix-inversion utility scripts of the repository.

The repository contains three near-duplicate scripts that invert a square
matrix:

* `inv.py`: builds the matrix [[3, -4], [1, 5]], inverts it inside a
  try/except block, prints the original and the inverse, and on a
  linear-algebra error prints a "Matrix inversion failed" diagnostic.
* `tmp_code_d904...py`: defines `calculate_inverse(matrix)` which calls the
  library inversion routine with NO exception handler, applies it to
  [[4, 7], [3, 6]] at top level (also without a handler), and prints the
  result.
* `tmp_code_9387...py`: builds [[1, 2], [3, 4]], inverts it inside a
  try/except block, multiplies the original by the inverse and checks the
  product against the identity matrix within a floating-point tolerance,
  printing the boolean outcome; on a linear-algebra error it prints an
  "Error: ..." diagnostic.

The inversion itself is delegated to an external numerics library whose
source is not part of the repository; the specification fixes its contract
as the mathematical inverse (A * invert A = invert A * A = identity) with a
singular-matrix failure when the determinant is zero, and leaves the
algorithm free.  We therefore model the number type as the exact rationals
and the inversion routine from that contract, via the adjugate formula.
-/

namespace Footsteps

/-- The single domain-specific failure kind of the scripts: the library
raises a linear-algebra error ("Singular matrix") when the determinant is
zero. -/
inductive InversionError where
  | singularMatrix
  deriving DecidableEq, Repr

/-- Modelled from the spec: the inversion routine of the external numerics
library (called by all three scripts), whose source is not in the
repository.  The spec fixes its contract as the mathematical inverse with a
singular-matrix failure when the determinant is zero, leaving the algorithm
free; we realise it by the adjugate formula over exact rationals. -/
def invert {n : ℕ} (A : Matrix (Fin n) (Fin n) ℚ) :
    Except InversionError (Matrix (Fin n) (Fin n) ℚ) :=
  if A.det = 0 then .error .singularMatrix
  else .ok (A.det⁻¹ • A.adjugate)

/-- The default comparison tolerance named by the spec for the verification
step. -/
def defaultTolerance : ℚ := 1e-8

/-- Modelled from the spec: the element-wise closeness check of the
verification step (the library call in the `tmp_code_9387...py` script whose
source is not in the repository): every entry of `M` must be within `tol` of
the corresponding entry of the identity matrix. -/
def allcloseId {n : ℕ} (M : Matrix (Fin n) (Fin n) ℚ) (tol : ℚ) : Bool :=
  decide (∀ i j, |M i j - (1 : Matrix (Fin n) (Fin n) ℚ) i j| ≤ tol)

/-- The verification step of the `tmp_code_9387...py` script: multiply the
original matrix by the computed inverse and compare the product to the
identity matrix within the tolerance. -/
def verify {n : ℕ} (original inverse : Matrix (Fin n) (Fin n) ℚ)
    (tol : ℚ) : Bool :=
  allcloseId (original * inverse) tol

/-- What one run of a script prints, at the level of detail the claims need:
either the successful pieces of output, or a single diagnostic message. -/
inductive ScriptOutput (n : ℕ) where
  | success : Matrix (Fin n) (Fin n) ℚ → Matrix (Fin n) (Fin n) ℚ →
      ScriptOutput n
  | verified : Matrix (Fin n) (Fin n) ℚ → Matrix (Fin n) (Fin n) ℚ →
      Matrix (Fin n) (Fin n) ℚ → Bool → ScriptOutput n
  | failure : String → ScriptOutput n
  deriving DecidableEq

/-- The body of `inv.py`, parameterised by the input matrix: the inversion
is wrapped in try/except, so every run returns normally, converting a
singular-matrix failure into a printed diagnostic. -/
def invScript {n : ℕ} (m : Matrix (Fin n) (Fin n) ℚ) : ScriptOutput n :=
  match invert m with
  | .ok b => .success m b
  | .error .singularMatrix => .failure "Matrix inversion failed: Singular matrix"

/-- The `calculate_inverse` function of the `tmp_code_d904...py` script: it
calls the inversion routine directly, with no exception handler. -/
def calculate_inverse {n : ℕ} (m : Matrix (Fin n) (Fin n) ℚ) :
    Except InversionError (Matrix (Fin n) (Fin n) ℚ) :=
  invert m

/-- The body of the `tmp_code_d904...py` script, parameterised by the input
matrix: the top-level call to `calculate_inverse` is NOT wrapped in
try/except, so a singular-matrix failure propagates out of the script
(abnormal termination), which the `Except` error case records. -/
def d904Script {n : ℕ} (m : Matrix (Fin n) (Fin n) ℚ) :
    Except InversionError (ScriptOutput n) :=
  (calculate_inverse m).map (fun b => .success m b)

/-- The body of the `tmp_code_9387...py` script, parameterised by the input
matrix: the inversion is wrapped in try/except; on success the script also
prints the product original * inverse and the identity check, and on a
linear-algebra error it prints a diagnostic. -/
def script9387 {n : ℕ} (m : Matrix (Fin n) (Fin n) ℚ) : ScriptOutput n :=
  match invert m with
  | .ok b => .verified m b (m * b) (verify m b defaultTolerance)
  | .error .singularMatrix =>
      .failure "Error: Singular matrix. The matrix is likely singular and cannot be inverted."

/-- The hard-coded example matrix of `inv.py`. -/
def invPyMatrix : Matrix (Fin 2) (Fin 2) ℚ := !![3, -4; 1, 5]

/-- The hard-coded example matrix of the `tmp_code_d904...py` script. -/
def matrix_example : Matrix (Fin 2) (Fin 2) ℚ := !![4, 7; 3, 6]

/-- The hard-coded example matrix of the `tmp_code_9387...py` script. -/
def example_matrix : Matrix (Fin 2) (Fin 2) ℚ := !![1, 2; 3, 4]

/-- On a nonzero determinant, `invert` returns the Mathlib nonsingular
inverse. -/
lemma invert_eq_ok_inv {n : ℕ} (A : Matrix (Fin n) (Fin n) ℚ)
    (h : A.det ≠ 0) : invert A = .ok A⁻¹ := by
  rw [invert, if_neg h, Matrix.inv_def, Ring.inverse_eq_inv]

/-- On a zero determinant, `invert` fails with the singular-matrix error. -/
lemma invert_eq_error {n : ℕ} (A : Matrix (Fin n) (Fin n) ℚ)
    (h : A.det = 0) : invert A = .error .singularMatrix := by
  rw [invert, if_pos h]

/-- The determinant of the nonsingular inverse is again nonzero. -/
lemma det_inv_ne_zero {n : ℕ} (A : Matrix (Fin n) (Fin n) ℚ)
    (h : A.det ≠ 0) : A⁻¹.det ≠ 0 := by
  rw [Matrix.det_nonsing_inv, Ring.inverse_eq_inv]
  exact inv_ne_zero h

/-- Claim C1: for every invertible square n by n rational matrix A (n ≥ 1),
`invert` succeeds with a matrix B such that both products B * A and A * B are
element-wise within tolerance 1e-8 of the identity matrix. -/
theorem C1_invert_products_identity {n : ℕ} (A : Matrix (Fin n) (Fin n) ℚ)
    (h : A.det ≠ 0) :
    ∃ B, invert A = .ok B ∧
      (∀ i j, |(B * A) i j - (1 : Matrix (Fin n) (Fin n) ℚ) i j| ≤ (1e-8 : ℚ)) ∧
      (∀ i j, |(A * B) i j - (1 : Matrix (Fin n) (Fin n) ℚ) i j| ≤ (1e-8 : ℚ)) := by
  refine ⟨A⁻¹, invert_eq_ok_inv A h, ?_, ?_⟩ <;> intro i j
  · rw [Matrix.nonsing_inv_mul A (isUnit_iff_ne_zero.mpr h), sub_self, abs_zero]
    norm_num
  · rw [Matrix.mul_nonsing_inv A (isUnit_iff_ne_zero.mpr h), sub_self, abs_zero]
    norm_num

/-- Witness for C1 at the concrete invertible matrix [[1, 2], [3, 4]]. -/
theorem C1_witness :
    (Matrix.det !![(1 : ℚ), 2; 3, 4] ≠ 0) ∧
    (∃ B, invert !![(1 : ℚ), 2; 3, 4] = .ok B ∧
      (∀ i j, |(B * !![(1 : ℚ), 2; 3, 4]) i j -
        (1 : Matrix (Fin 2) (Fin 2) ℚ) i j| ≤ (1e-8 : ℚ)) ∧
      (∀ i j, |(!![(1 : ℚ), 2; 3, 4] * B) i j -
        (1 : Matrix (Fin 2) (Fin 2) ℚ) i j| ≤ (1e-8 : ℚ))) :=
  ⟨by rw [Matrix.det_fin_two_of]; norm_num,
   C1_invert_products_identity _ (by rw [Matrix.det_fin_two_of]; norm_num)⟩

/-- Claim C2: for every singular square matrix A (determinant zero), `invert`
fails with the singular-matrix error and never returns a numeric result. -/
theorem C2_singular_fails {n : ℕ} (A : Matrix (Fin n) (Fin n) ℚ)
    (h : A.det = 0) :
    invert A = .error .singularMatrix ∧ ∀ B, invert A ≠ .ok B := by
  refine ⟨invert_eq_error A h, fun B hB => ?_⟩
  rw [invert_eq_error A h] at hB
  exact Except.noConfusion hB

/-- Witness for C2 at the concrete singular matrix [[1, 2], [2, 4]]. -/
theorem C2_witness :
    (Matrix.det !![(1 : ℚ), 2; 2, 4] = 0) ∧
    (invert !![(1 : ℚ), 2; 2, 4] = .error .singularMatrix ∧
      ∀ B, invert !![(1 : ℚ), 2; 2, 4] ≠ .ok B) :=
  ⟨by rw [Matrix.det_fin_two_of]; norm_num,
   C2_singular_fails _ (by rw [Matrix.det_fin_two_of]; norm_num)⟩

/-- Claim C3: `verify original inverse tol` returns true exactly when every
element of the product original * inverse is within `tol` of the
corresponding identity entry: 1 on the diagonal and 0 off the diagonal. -/
theorem C3_verify_iff_close_to_identity {n : ℕ}
    (original inverse : Matrix (Fin n) (Fin n) ℚ) (tol : ℚ) :
    verify original inverse tol = true ↔
      ∀ i j, |(original * inverse) i j -
        (if i = j then (1 : ℚ) else 0)| ≤ tol := by
  simp only [verify, allcloseId, decide_eq_true_iff, Matrix.one_apply]

/-- Claim C4 counterexample: the `tmp_code_d904...py` script has no exception
handler, so on the singular input [[1, 2], [2, 4]] the singular-matrix
failure propagates out of the script uncaught instead of being converted to
a printed diagnostic. -/
theorem C4_counterexample :
    d904Script !![(1 : ℚ), 2; 2, 4] = .error .singularMatrix := by
  have h : Matrix.det !![(1 : ℚ), 2; 2, 4] = 0 := by
    rw [Matrix.det_fin_two_of]; norm_num
  rw [d904Script, calculate_inverse, invert_eq_error _ h]
  rfl

/-- Claim C4 as amended: in `inv.py` and the `tmp_code_9387...py` script a
singular-matrix failure is caught at the top-level call site and converted
to a printed diagnostic, so those runs return normally; the
`tmp_code_d904...py` script has no handler, but its hard-coded input
[[4, 7], [3, 6]] is nonsingular, so that run also completes normally. -/
theorem C4_amended_handling {n : ℕ} (m : Matrix (Fin n) (Fin n) ℚ)
    (h : m.det = 0) :
    invScript m = .failure "Matrix inversion failed: Singular matrix" ∧
    script9387 m =
      .failure "Error: Singular matrix. The matrix is likely singular and cannot be inverted." ∧
    ∃ out, d904Script matrix_example = .ok out := by
  refine ⟨?_, ?_, ?_⟩
  · simp only [invScript, invert_eq_error _ h]
  · simp only [script9387, invert_eq_error _ h]
  · have hd : matrix_example.det ≠ 0 := by
      rw [matrix_example, Matrix.det_fin_two_of]; norm_num
    exact ⟨_, by rw [d904Script, calculate_inverse, invert_eq_ok_inv _ hd]; rfl⟩

/-- Witness for the amended C4 at the singular input [[1, 2], [2, 4]]. -/
theorem C4_amended_witness :
    (Matrix.det !![(1 : ℚ), 2; 2, 4] = 0) ∧
    (invScript !![(1 : ℚ), 2; 2, 4] =
        .failure "Matrix inversion failed: Singular matrix" ∧
      script9387 !![(1 : ℚ), 2; 2, 4] =
        .failure "Error: Singular matrix. The matrix is likely singular and cannot be inverted." ∧
      ∃ out, d904Script matrix_example = .ok out) := by
  have h : Matrix.det !![(1 : ℚ), 2; 2, 4] = 0 := by
    rw [Matrix.det_fin_two_of]; norm_num
  exact ⟨h, C4_amended_handling _ h⟩

/-- Claim C5 counterexample: on the input [[4, 7], [3, 6]] the inversion
routine returns [[2, -7/3], [-1, 4/3]], whose (0,0) entry 2 is nowhere near
the value 0.6667 stated by the claim (the difference exceeds any
four-decimal rounding tolerance 0.00005). -/
theorem C5_counterexample :
    invert matrix_example = .ok !![(2 : ℚ), -7/3; -1, 4/3] ∧
    ¬ (∀ i j, |(!![(2 : ℚ), -7/3; -1, 4/3]) i j -
        (!![(0.6667 : ℚ), -0.7778; -0.3333, 0.4444]) i j| ≤ (0.00005 : ℚ)) := by
  constructor
  · rw [matrix_example, invert, Matrix.det_fin_two_of, Matrix.adjugate_fin_two_of]
    norm_num
  · intro hall
    have h00 := hall 0 0
    simp only [Matrix.cons_val_zero, Matrix.cons_val_fin_one] at h00
    rw [abs_le] at h00
    norm_num at h00

/-- Claim C5 as amended: for the input [[4, 7], [3, 6]] (determinant 3),
`invert` returns exactly [[2, -7/3], [-1, 4/3]], which is
[[2.0000, -2.3333], [-1.0000, 1.3333]] to four-decimal precision. -/
theorem C5_amended_inverse :
    invert matrix_example = .ok !![(2 : ℚ), -7/3; -1, 4/3] ∧
    Matrix.det matrix_example = 3 ∧
    (∀ i j, |(!![(2 : ℚ), -7/3; -1, 4/3]) i j -
      (!![(2 : ℚ), -2.3333; -1, 1.3333]) i j| ≤ (0.00005 : ℚ)) := by
  refine ⟨?_, ?_, ?_⟩
  · rw [matrix_example, invert, Matrix.det_fin_two_of, Matrix.adjugate_fin_two_of]
    norm_num
  · rw [matrix_example, Matrix.det_fin_two_of]; norm_num
  · intro i j
    fin_cases i <;> fin_cases j <;> simp <;> norm_num [abs_le]

/-- Claim C6: on the input [[1, 2], [3, 4]] the inversion routine returns
[[-2, 1], [1.5, -0.5]], the verification product equals the identity matrix
exactly, and the verification step returns true. -/
theorem C6_scenario2 :
    invert example_matrix = .ok !![(-2 : ℚ), 1; 3/2, -1/2] ∧
    example_matrix * !![(-2 : ℚ), 1; 3/2, -1/2] = 1 ∧
    verify example_matrix !![(-2 : ℚ), 1; 3/2, -1/2] defaultTolerance = true := by
  refine ⟨?_, ?_, ?_⟩
  · rw [example_matrix, invert, Matrix.det_fin_two_of, Matrix.adjugate_fin_two_of]
    norm_num
  · ext i j
    fin_cases i <;> fin_cases j <;>
      simp [example_matrix, Matrix.mul_apply, Fin.sum_univ_two, Matrix.one_apply] <;>
      norm_num
  · rw [verify, allcloseId, decide_eq_true_iff]
    intro i j
    fin_cases i <;> fin_cases j <;>
      simp [example_matrix, Matrix.mul_apply, Fin.sum_univ_two, Matrix.one_apply,
        defaultTolerance] <;>
      norm_num

/-- Claim C7: round trip. For every invertible matrix A, `invert` succeeds
with some B, and applying `invert` to B succeeds and returns A itself (the
embedding computes over exact rationals, so the round trip is exact, hence
in particular within any tolerance). -/
theorem C7_round_trip {n : ℕ} (A : Matrix (Fin n) (Fin n) ℚ)
    (h : A.det ≠ 0) :
    ∃ B, invert A = .ok B ∧ invert B = .ok A := by
  refine ⟨A⁻¹, invert_eq_ok_inv A h, ?_⟩
  rw [invert_eq_ok_inv _ (det_inv_ne_zero A h),
    Matrix.nonsing_inv_nonsing_inv A (isUnit_iff_ne_zero.mpr h)]

/-- Witness for C7 at the concrete invertible matrix [[1, 2], [3, 4]]. -/
theorem C7_witness :
    (Matrix.det !![(1 : ℚ), 2; 3, 4] ≠ 0) ∧
    (∃ B, invert !![(1 : ℚ), 2; 3, 4] = .ok B ∧
      invert B = .ok !![(1 : ℚ), 2; 3, 4]) :=
  ⟨by rw [Matrix.det_fin_two_of]; norm_num,
   C7_round_trip _ (by rw [Matrix.det_fin_two_of]; norm_num)⟩

/-- Claim C8: for every nonzero rational k, the inversion routine applied to
the 1 by 1 matrix [[k]] returns [[1/k]]. -/
theorem C8_one_by_one (k : ℚ) (h : k ≠ 0) :
    invert !![k] = .ok !![k⁻¹] := by
  rw [invert, Matrix.det_fin_one_of, if_neg h, Matrix.adjugate_fin_one]
  congr 1
  ext i j
  fin_cases i; fin_cases j
  simp [Matrix.one_apply]

/-- Witness for C8 at k = 2. -/
theorem C8_witness :
    ((2 : ℚ) ≠ 0) ∧ invert !![(2 : ℚ)] = .ok !![(2 : ℚ)⁻¹] :=
  ⟨by norm_num, C8_one_by_one 2 (by norm_num)⟩

/-- Claim C9: `calculate_inverse` is deterministic. Its result depends only
on the entries of the input matrix, so two calls on equal inputs return
identical results; the embedding of the call is a pure function of the
matrix value, with no state, so the input is unchanged by the call. -/
theorem C9_pure_deterministic {n : ℕ}
    (A B : Matrix (Fin n) (Fin n) ℚ) (h : ∀ i j, A i j = B i j) :
    calculate_inverse A = calculate_inverse B := by
  have hAB : A = B := by
    ext i j
    exact h i j
  rw [hAB]

/-- Witness for C9: two calls on the matrix [[1, 2], [3, 4]] agree. -/
theorem C9_witness :
    (∀ i j, example_matrix i j = example_matrix i j) ∧
    calculate_inverse example_matrix = calculate_inverse example_matrix :=
  ⟨fun _ _ => rfl,
   C9_pure_deterministic example_matrix example_matrix (fun _ _ => rfl)⟩

/-- Claim C10: every invertible square matrix with integer entries is
accepted: promoting its entries to the rationals, `invert` succeeds and
returns a matrix of rational entries of the same n by n shape. -/
theorem C10_integer_entries_accepted {n : ℕ}
    (A : Matrix (Fin n) (Fin n) ℤ) (h : A.det ≠ 0) :
    ∃ B : Matrix (Fin n) (Fin n) ℚ,
      invert (A.map (Int.cast : ℤ → ℚ)) = .ok B := by
  have hq : (A.map (Int.cast : ℤ → ℚ)).det ≠ 0 := by
    have h2 : (A.map (Int.cast : ℤ → ℚ)).det = ((A.det : ℤ) : ℚ) := by
      rw [show ((Int.cast : ℤ → ℚ)) = ⇑(Int.castRingHom ℚ) by ext x; simp]
      exact ((Int.castRingHom ℚ).map_det A).symm
    rw [h2]
    exact_mod_cast h
  exact ⟨_, invert_eq_ok_inv _ hq⟩

/-- Witness for C10 at the integer matrix [[1, 2], [3, 4]]. -/
theorem C10_witness :
    (Matrix.det !![(1 : ℤ), 2; 3, 4] ≠ 0) ∧
    ∃ B : Matrix (Fin 2) (Fin 2) ℚ,
      invert ((!![(1 : ℤ), 2; 3, 4]).map (Int.cast : ℤ → ℚ)) = .ok B :=
  ⟨by rw [Matrix.det_fin_two_of]; norm_num,
   C10_integer_entries_accepted _ (by rw [Matrix.det_fin_two_of]; norm_num)⟩

end Footsteps
